import Mathlib

/-
Shallow embedding of the player controller in src/src/player.tsx
(movement, camera-mode state machine, projectile system) and proofs of
the spec claims about it.  Machine floats are modelled by the rationals;
the only irrational constant of the source, Math.PI, is kept as an
explicit parameter where it occurs and instantiated with the real pi in
the theorems that mention it.
-/

namespace Player

/-- 3D vector over the rationals (the source uses three.js `Vector3`). -/
structure Vec3 where
  x : ℚ
  y : ℚ
  z : ℚ
deriving DecidableEq

def Vec3.add (a b : Vec3) : Vec3 := ⟨a.x + b.x, a.y + b.y, a.z + b.z⟩

def Vec3.smul (c : ℚ) (a : Vec3) : Vec3 := ⟨c * a.x, c * a.y, c * a.z⟩

def Vec3.dot (a b : Vec3) : ℚ := a.x * b.x + a.y * b.y + a.z * b.z

/-- Cross product, used for `right.crossVectors(up, forward)` (player.tsx:372). -/
def Vec3.cross (a b : Vec3) : Vec3 :=
  ⟨a.y * b.z - a.z * b.y, a.z * b.x - a.x * b.z, a.x * b.y - a.y * b.x⟩

/-- The world up vector `new Vector3(0, 1, 0)` (player.tsx:372). -/
def upVec : Vec3 := ⟨0, 1, 0⟩

/- Constants of the source (player.tsx:79, 102-103, 107-109, 114-116). -/

def fireRate : ℚ := 100

def jumpForce : ℚ := 3 / 10

def gravity : ℚ := 3 / 200

def crouchSpeedMultiplier : ℚ := 1 / 2

def normalSpeed : ℚ := 1 / 10

def crouchHeight : ℚ := 1 / 2

def minCameraDistance : ℚ := 3

def maxCameraDistance : ℚ := 8

/- ------------------------------------------------------------------ -/
/- Movement speed (player.tsx:362)                                     -/
/- ------------------------------------------------------------------ -/

/-- The speed selection of player.tsx:362, parametric in the two constants:
`const speed = isCrouching ? normalSpeed * crouchSpeedMultiplier : normalSpeed`. -/
def speedWith (base mult : ℚ) (crouching : Bool) : ℚ :=
  if crouching then base * mult else base

/-- The speed selection with the source's constants. -/
def speedOf (crouching : Bool) : ℚ :=
  speedWith normalSpeed crouchSpeedMultiplier crouching

/- ------------------------------------------------------------------ -/
/- Horizontal movement (player.tsx:362-378)                            -/
/- ------------------------------------------------------------------ -/

/-- The WASD key snapshot used by the tick (player.tsx:61-68). -/
structure Keys where
  w : Bool
  a : Bool
  s : Bool
  d : Bool
deriving DecidableEq

/-- Net horizontal displacement of one tick (player.tsx:371-378).  The source
computes `right = up x forward` and then normalizes; the player quaternion is a
pure yaw rotation (player.tsx:430), so `forward` is a unit vector with zero y
component, the cross product already has unit norm, and normalization is the
identity; it is therefore omitted here.  `dt` is the frame delta supplied to
`useFrame`; the walk movement of the source does not use it. -/
def moveStep (keys : Keys) (forward : Vec3) (speed dt : ℚ) : Vec3 :=
  let right := Vec3.cross upVec forward
  let p0 : Vec3 := ⟨0, 0, 0⟩
  let p1 := if keys.w then p0.add (Vec3.smul speed forward) else p0
  let p2 := if keys.s then p1.add (Vec3.smul (-speed) forward) else p1
  let p3 := if keys.a then p2.add (Vec3.smul (-speed) right) else p2
  let p4 := if keys.d then p3.add (Vec3.smul speed right) else p3
  p4

/- ------------------------------------------------------------------ -/
/- Jump integration (player.tsx:380-392)                               -/
/- ------------------------------------------------------------------ -/

/-- One airborne tick (player.tsx:381-392).  The source adds the pre-update
velocity to the position (`position.y += jumpVelocity` reads the state value of
this render, while `setJumpVelocity(jumpVelocity - gravity)` only takes effect
afterwards), then clamps on landing.  `dt` is the frame delta supplied to
`useFrame`; the jump integration of the source does not use it.  Result:
(new y, new velocity, still airborne). -/
def jumpStep (dt : ℚ) (groundY y v : ℚ) : ℚ × ℚ × Bool :=
  let y2 := y + v
  if y2 ≤ groundY then (groundY, 0, false) else (y2, v - gravity, true)

/-- The integration rule asserted by the claim, for comparison with `jumpStep`:
velocity decreases by gravity * dt and the position increases by velocity * dt,
with the same landing clamp. -/
def jumpStepClaim (dt : ℚ) (groundY y v : ℚ) : ℚ × ℚ × Bool :=
  let v2 := v - gravity * dt
  let y2 := y + v2 * dt
  if y2 ≤ groundY then (groundY, 0, false) else (y2, v2, true)

/- ------------------------------------------------------------------ -/
/- Camera mode state machine (player.tsx:188-218, 276-295)             -/
/- ------------------------------------------------------------------ -/

/-- The state read and written by the aim-mode transitions: the aiming flag,
the camera pose, the saved restore pose (`savedCameraState`, player.tsx:81-84),
and the inputs of the aim-camera effect (player.tsx:276-295). -/
structure CameraState where
  isAiming : Bool
  camPos : Vec3
  camRot : Vec3
  saved : Option (Vec3 × Vec3)
  playerPos : Vec3
  rotationX : ℚ
  rotationY : ℚ
  isCrouching : Bool
  originalCameraPositionY : ℚ
deriving DecidableEq

/-- Right-button mousedown (player.tsx:191-196): unconditionally save the
current camera pose as the restore point and enter aim mode. -/
def aimMouseDown (s : CameraState) : CameraState :=
  { s with saved := some (s.camPos, s.camRot), isAiming := true }

/-- Right-button mouseup (player.tsx:210-212): leave aim mode. -/
def aimMouseUp (s : CameraState) : CameraState :=
  { s with isAiming := false }

/-- The aim-camera effect (player.tsx:276-295): while aiming, pin the camera to
the head position (or to the crouch-adjusted height) and set its rotation from
rotationX/rotationY with zero roll; on leaving aim, restore the saved pose
exactly and clear it. -/
def aimCameraEffect (s : CameraState) : CameraState :=
  if s.isAiming then
    let headPos := s.playerPos.add ⟨0, 9 / 10, 0⟩
    let pos :=
      if s.isCrouching ∧ s.originalCameraPositionY ≠ 0 then
        { s.camPos with y := s.originalCameraPositionY - crouchHeight }
      else headPos
    { s with camPos := pos, camRot := ⟨s.rotationX, s.rotationY, 0⟩ }
  else
    match s.saved with
    | some pr => { s with camPos := pr.1, camRot := pr.2, saved := none }
    | none => s

/-- Enter aim mode and leave it again, each event followed by the effect it
triggers, with no mouse movement in between. -/
def aimToggle (s : CameraState) : CameraState :=
  aimCameraEffect (aimMouseUp (aimCameraEffect (aimMouseDown s)))

/- ------------------------------------------------------------------ -/
/- Mouse look (player.tsx:199-232)                                     -/
/- ------------------------------------------------------------------ -/

/-- The mouse-look state (player.tsx:92-96), parametric in the number field so
that the clamp bound Math.PI/2 can be carried exactly. -/
structure MouseState (K : Type) where
  isMouseDown : Bool
  mouseX : K
  mouseY : K
  rotationX : K
  rotationY : K

/-- `handleMouseMove` (player.tsx:220-232): while the left button is down,
apply the full delta scaled by 0.01 to the yaw, and the same to the pitch
clamped into [-halfPi, halfPi], where `halfPi` stands for Math.PI/2. -/
def handleMouseMove {K : Type} [LinearOrderedField K] (halfPi : K)
    (s : MouseState K) (cx cy : K) : MouseState K :=
  if s.isMouseDown then
    let dx := cx - s.mouseX
    let dy := cy - s.mouseY
    { s with
      rotationY := s.rotationY - dx * (1 / 100)
      rotationX := max (-halfPi) (min halfPi (s.rotationX - dy * (1 / 100)))
      mouseX := cx
      mouseY := cy }
  else s

/-- The mouse events that touch the look state: left-button down
(player.tsx:200-204), left-button up (player.tsx:215-217), and a move. -/
inductive MouseEvent (K : Type) where
  | down (cx cy : K)
  | up
  | move (cx cy : K)

def applyMouseEvent {K : Type} [LinearOrderedField K] (halfPi : K)
    (s : MouseState K) : MouseEvent K → MouseState K
  | MouseEvent.down cx cy => { s with isMouseDown := true, mouseX := cx, mouseY := cy }
  | MouseEvent.up => { s with isMouseDown := false }
  | MouseEvent.move cx cy => handleMouseMove halfPi s cx cy

def runMouseEvents {K : Type} [LinearOrderedField K] (halfPi : K)
    (s : MouseState K) (events : List (MouseEvent K)) : MouseState K :=
  events.foldl (applyMouseEvent halfPi) s

/-- The initial look state (player.tsx:92-96): everything zero, button up. -/
def initialMouseState (K : Type) [LinearOrderedField K] : MouseState K :=
  { isMouseDown := false, mouseX := 0, mouseY := 0, rotationX := 0, rotationY := 0 }

/- ------------------------------------------------------------------ -/
/- Camera distance (player.tsx:162-168, 239-245)                       -/
/- ------------------------------------------------------------------ -/

/-- The events that touch the orbit distance: the '=' / '+' key, the '-' / '_'
key (player.tsx:162-168) and a wheel event with the sign of its deltaY
(player.tsx:239-245). -/
inductive DistEvent where
  | keyPlus
  | keyMinus
  | wheel (deltaYPos : Bool)
deriving DecidableEq

/-- Distance update for one event.  The key handlers clamp on one side only and
run regardless of the camera mode; the wheel handler clamps on both sides and
is guarded by `!isAiming`. -/
def applyDistEvent (isAiming : Bool) (d : ℚ) : DistEvent → ℚ
  | DistEvent.keyPlus => max minCameraDistance (d - 1 / 2)
  | DistEvent.keyMinus => min maxCameraDistance (d + 1 / 2)
  | DistEvent.wheel deltaYPos =>
      if isAiming then d
      else
        let delta : ℚ := if deltaYPos then 1 / 2 else -(1 / 2)
        max minCameraDistance (min maxCameraDistance (d + delta))

/- ------------------------------------------------------------------ -/
/- Fire rate limiting (player.tsx:78-79, 546-582)                      -/
/- ------------------------------------------------------------------ -/

/-- One render frame, with its `performance.now()` timestamp and whether the
fire button is held during it. -/
structure Frame where
  time : ℚ
  firing : Bool
deriving DecidableEq

/-- The spawn timestamps produced by the firing gate of player.tsx:547-549
(`if (isFiring && currentTime - lastFireTime.current > fireRate)`), folded over
a list of frames with the given initial `lastFireTime`. -/
def spawnTimesAux : ℚ → List Frame → List ℚ
  | _, [] => []
  | last, f :: fs =>
      if f.firing = true ∧ fireRate < f.time - last then
        f.time :: spawnTimesAux f.time fs
      else
        spawnTimesAux last fs

/-- Spawn timestamps of a run; `lastFireTime` starts at 0 (player.tsx:78). -/
def spawnTimes (fs : List Frame) : List ℚ := spawnTimesAux 0 fs

/- ------------------------------------------------------------------ -/
/- Projectile system (player.tsx:15-21, 298-342, 517-544)              -/
/- ------------------------------------------------------------------ -/

/-- A live bullet (player.tsx:15-21). -/
structure Bullet where
  id : Nat
  position : Vec3
  direction : Vec3
  velocity : ℚ
  lifespan : ℚ
deriving DecidableEq

/-- What the short-range raycast of player.tsx:318-339 reports as its first
intersection: the boss mesh itself, or some other target (a wall mesh or a
child mesh, for which `intersects[0].object === bossRef.current` is false). -/
inductive RayTarget where
  | boss
  | other
deriving DecidableEq

/-- The collider environment of one tick: the boss bounding-box containment
test when the boss ref is present, the wall bounding-box containment tests in
registration order, and the result of the short-range raycast from a position
along a direction. -/
structure World where
  bossBox : Option (Vec3 → Bool)
  walls : List (Vec3 → Bool)
  rayFirstHit : Vec3 → Vec3 → Option RayTarget

/-- Boss containment (player.tsx:300-306): skipped when the ref is absent. -/
def bossContainsPoint (w : World) (p : Vec3) : Bool :=
  match w.bossBox with
  | some contains => contains p
  | none => false

/-- Wall containment (player.tsx:308-316). -/
def wallContainsPoint (w : World) (p : Vec3) : Bool :=
  w.walls.any (fun f => f p)

/-- `checkBulletCollision` (player.tsx:298-342).  Returns whether the bullet is
removed and how many boss-hit notifications (`onBossHit` calls) the call
raises: boss containment notifies and returns; wall containment returns without
notifying; otherwise the raycast removes on any hit and notifies only when its
first intersection is the boss mesh itself. -/
def checkBulletCollision (w : World) (b : Bullet) : Bool × Nat :=
  if bossContainsPoint w b.position then (true, 1)
  else if wallContainsPoint w b.position then (true, 0)
  else
    match w.rayFirstHit b.position b.direction with
    | some RayTarget.boss => (true, 1)
    | some RayTarget.other => (true, 0)
    | none => (false, 0)

/-- Bullet advance (player.tsx:526-535): position += direction * velocity * dt
and lifespan -= dt. -/
def advanceBullet (dt : ℚ) (b : Bullet) : Bullet :=
  { b with
    position := b.position.add (Vec3.smul (b.velocity * dt) b.direction)
    lifespan := b.lifespan - dt }

/-- One bullet's tick (player.tsx:520-542): test at the current position, and
only if that misses advance and test again; either hit removes the bullet.
Returns the surviving bullet (if any) and the notifications raised. -/
def stepBullet (w : World) (dt : ℚ) (b : Bullet) : Option Bullet × Nat :=
  let c1 := checkBulletCollision w b
  if c1.1 then (none, c1.2)
  else
    let b2 := advanceBullet dt b
    let c2 := checkBulletCollision w b2
    if c2.1 then (none, c2.2)
    else (some b2, 0)

/-- The whole tick over the live set (player.tsx:518-544): map `stepBullet`,
drop removed bullets and those whose lifespan fell to 0 or below; the second
component totals the boss-hit notifications of the tick. -/
def updateBullets (w : World) (dt : ℚ) (bs : List Bullet) : List Bullet × Nat :=
  let results := bs.map (stepBullet w dt)
  ((results.filterMap Prod.fst).filter (fun b2 => decide (0 < b2.lifespan)),
    (results.map Prod.snd).sum)

/- ------------------------------------------------------------------ -/
/- Concrete fixtures for witnesses and counterexamples                 -/
/- ------------------------------------------------------------------ -/

/-- A concrete boss bounding box: the cube [-1,1]^3. -/
def testBoss : Vec3 → Bool := fun p =>
  decide (-1 ≤ p.x ∧ p.x ≤ 1 ∧ -1 ≤ p.y ∧ p.y ≤ 1 ∧ -1 ≤ p.z ∧ p.z ≤ 1)

/-- A concrete collider environment with the boss present and no walls. -/
def testWorld : World :=
  { bossBox := some testBoss, walls := [], rayFirstHit := fun _ _ => none }

/-- A concrete bullet sitting inside the boss box. -/
def testBullet : Bullet :=
  { id := 0, position := ⟨0, 0, 0⟩, direction := ⟨0, 0, -1⟩, velocity := 20, lifespan := 3 / 2 }

/-- A concrete camera state that is already in aim mode, whose saved restore
pose differs from the current camera pose. -/
def aimStateA : CameraState :=
  { isAiming := true, camPos := ⟨0, 9 / 10, 0⟩, camRot := ⟨0, 0, 0⟩,
    saved := some (⟨3, 2, 4⟩, ⟨1, 0, 0⟩), playerPos := ⟨0, 0, 0⟩,
    rotationX := 0, rotationY := 0, isCrouching := false,
    originalCameraPositionY := 0 }

/- ------------------------------------------------------------------ -/
/- Theorems                                                            -/
/- ------------------------------------------------------------------ -/

/-- Helper: a single `checkBulletCollision` call raises at most one boss-hit
notification. -/
theorem checkBulletCollision_notifies_le_one (w : World) (b : Bullet) :
    (checkBulletCollision w b).2 ≤ 1 := by
  unfold checkBulletCollision
  split
  · exact le_refl 1
  · split
    · exact Nat.zero_le 1
    · split <;> simp

/-- Claim C1 (confirmed): for every tick and every live bullet, if the test at
the current position, or the test at the advanced position when the first
missed, reports a boss hit, then the bullet is removed with exactly one
boss-hit notification; if it reports a wall hit, the bullet is removed with no
notification; a bullet never raises more than one notification in a tick, and
a removed bullet leaves the live set within the same tick. -/
theorem bullet_collision_exactly_once (w : World) (dt : ℚ) (b : Bullet) :
    (checkBulletCollision w b = (true, 1) → stepBullet w dt b = (none, 1)) ∧
    (checkBulletCollision w b = (true, 0) → stepBullet w dt b = (none, 0)) ∧
    ((checkBulletCollision w b).1 = false →
      checkBulletCollision w (advanceBullet dt b) = (true, 1) →
      stepBullet w dt b = (none, 1)) ∧
    ((checkBulletCollision w b).1 = false →
      checkBulletCollision w (advanceBullet dt b) = (true, 0) →
      stepBullet w dt b = (none, 0)) ∧
    (stepBullet w dt b).2 ≤ 1 ∧
    (checkBulletCollision w b = (true, 1) → updateBullets w dt [b] = ([], 1)) ∧
    (checkBulletCollision w b = (true, 0) → updateBullets w dt [b] = ([], 0)) := by
  refine ⟨?_, ?_, ?_, ?_, ?_, ?_, ?_⟩
  · intro h; simp [stepBullet, h]
  · intro h; simp [stepBullet, h]
  · intro h1 h2; simp [stepBullet, h1, h2]
  · intro h1 h2; simp [stepBullet, h1, h2]
  · unfold stepBullet
    by_cases h1 : (checkBulletCollision w b).1 = true
    · simp only [h1, if_true]
      exact checkBulletCollision_notifies_le_one w b
    · simp only [Bool.not_eq_true] at h1
      simp only [h1, Bool.false_eq_true, if_false]
      by_cases h2 : (checkBulletCollision w (advanceBullet dt b)).1 = true
      · simp only [h2, if_true]
        exact checkBulletCollision_notifies_le_one w (advanceBullet dt b)
      · simp only [Bool.not_eq_true] at h2
        simp only [h2, Bool.false_eq_true, if_false]
        exact Nat.zero_le 1
  · intro h; simp [updateBullets, stepBullet, h]
  · intro h; simp [updateBullets, stepBullet, h]

/-- Witness for C1: a bullet inside the boss box is removed from the live set
with exactly one notification. -/
theorem bullet_collision_exactly_once_witness :
    checkBulletCollision testWorld testBullet = (true, 1) ∧
    stepBullet testWorld 1 testBullet = (none, 1) ∧
    updateBullets testWorld 1 [testBullet] = ([], 1) := by
  have hc : checkBulletCollision testWorld testBullet = (true, 1) := by
    norm_num [checkBulletCollision, bossContainsPoint, testWorld, testBoss, testBullet]
  refine ⟨hc, ?_, ?_⟩
  · exact (bullet_collision_exactly_once testWorld 1 testBullet).1 hc
  · exact (bullet_collision_exactly_once testWorld 1 testBullet).2.2.2.2.2.1 hc

/-- Helper for C2: every spawn timestamp emitted by the firing gate is more
than `fireRate` later than the previous spawn (and than the initial
lastFireTime). -/
theorem spawnTimesAux_chain (fs : List Frame) :
    ∀ last : ℚ,
      List.Chain' (fun t1 t2 => t1 + fireRate < t2) (spawnTimesAux last fs) ∧
      (∀ t, (spawnTimesAux last fs).head? = some t → last + fireRate < t) := by
  induction fs with
  | nil =>
    intro last
    refine ⟨by simp [spawnTimesAux], ?_⟩
    intro t ht
    simp [spawnTimesAux] at ht
  | cons f fs ih =>
    intro last
    by_cases h : f.firing = true ∧ fireRate < f.time - last
    · rw [spawnTimesAux, if_pos h]
      refine ⟨?_, ?_⟩
      · rw [List.chain'_cons']
        exact ⟨fun t ht => (ih f.time).2 t (Option.mem_def.mp ht), (ih f.time).1⟩
      · intro t ht
        rw [List.head?_cons, Option.some.injEq] at ht
        subst ht
        linarith [h.2]
    · rw [spawnTimesAux, if_neg h]
      exact ih last

/-- Claim C2 counterexample: with frames at the exact 100 ms boundaries of a
250 ms hold starting at wall clock 1000, the strict comparison of the gate
spawns at t = 0 and t = 200 into the hold (not t = 0 and t = 100 with t = 200
excluded); and a hold with frames at 1000, 1101, 1202 spawns 3 bullets within
250 ms, not floor(250/100) = 2. -/
theorem fire_rate_scenario_cex :
    spawnTimes [⟨1000, true⟩, ⟨1100, true⟩, ⟨1200, true⟩] = [1000, 1200] ∧
    spawnTimes [⟨1000, true⟩, ⟨1100, true⟩, ⟨1200, true⟩] ≠ [1000, 1100] ∧
    spawnTimes [⟨1000, true⟩, ⟨1101, true⟩, ⟨1202, true⟩] = [1000, 1101, 1202] := by
  norm_num [spawnTimes, spawnTimesAux, fireRate]

/-- Claim C2 (amended): consecutive spawns are separated by strictly more than
fireRate milliseconds of wall-clock time, whatever the frame schedule, so a
window of T ms contains at most floor(T / I) + 1 spawns; with frames at exact
multiples of 100 ms into the hold, bullets spawn at t = 0 and t = 200 (the
strict comparison excludes t = 100). -/
theorem fire_rate_gap (fs : List Frame) :
    List.Chain' (fun t1 t2 => t1 + fireRate < t2) (spawnTimes fs) ∧
    spawnTimes [⟨1000, true⟩, ⟨1100, true⟩, ⟨1200, true⟩] = [1000, 1200] :=
  ⟨(spawnTimesAux_chain fs 0).1, by norm_num [spawnTimes, spawnTimesAux, fireRate]⟩

/-- Claim C3 counterexample: at dt = 2 from the airborne state y = 1, v = 0
over ground level 0, the source's step leaves position 1 and velocity
-gravity, while the claimed dt-scaled rule gives position 47/50 and velocity
-2 * gravity. -/
theorem jump_not_dt_scaled_cex :
    jumpStep 2 0 1 0 = (1, -(3 / 200), true) ∧
    jumpStepClaim 2 0 1 0 = (47 / 50, -(3 / 100), true) ∧
    jumpStep 2 0 1 0 ≠ jumpStepClaim 2 0 1 0 := by
  norm_num [jumpStep, jumpStepClaim, gravity]

/-- Claim C3 (amended): the jump integration is per frame and independent of
the tick's delta time: while airborne the position increases by the pre-update
velocity and the velocity decreases by gravity, each once per tick; when the
new position reaches or falls below ground level it is clamped to ground
level, the velocity is zeroed and the player lands. -/
theorem jump_per_frame (dt dt2 groundY y v : ℚ) :
    jumpStep dt groundY y v = jumpStep dt2 groundY y v ∧
    (groundY < y + v → jumpStep dt groundY y v = (y + v, v - gravity, true)) ∧
    (y + v ≤ groundY → jumpStep dt groundY y v = (groundY, 0, false)) := by
  refine ⟨rfl, ?_, ?_⟩
  · intro h
    have hn : ¬ (y + v ≤ groundY) := not_le.mpr h
    simp [jumpStep, hn]
  · intro h
    simp [jumpStep, h]

/-- Witness for C3: one airborne tick from y = 1 with the initial jump
velocity. -/
theorem jump_per_frame_witness :
    (0 : ℚ) < 1 + jumpForce ∧
    jumpStep 1 0 1 jumpForce = (1 + jumpForce, jumpForce - gravity, true) :=
  ⟨by norm_num [jumpForce], (jump_per_frame 1 2 0 1 jumpForce).2.1 (by norm_num [jumpForce])⟩

/-- Claim C4 counterexample: in the concrete aiming state `aimStateA`, a
further aim-button-down event overwrites the saved restore pose with the
current camera pose, so the repeated event is not a no-op. -/
theorem aim_down_not_idempotent_cex :
    aimStateA.isAiming = true ∧
    (aimMouseDown aimStateA).saved ≠ aimStateA.saved := by
  norm_num [aimMouseDown, aimStateA]

/-- Claim C4 (amended): a repeated aim-button-down event while already in AIM
keeps the mode and the camera pose unchanged, but it overwrites the saved
restore pose with the current camera pose; it is a no-op only when the saved
pose already equals the current pose. -/
theorem aim_down_in_aim (s : CameraState) (h : s.isAiming = true) :
    (aimMouseDown s).isAiming = true ∧
    (aimMouseDown s).camPos = s.camPos ∧
    (aimMouseDown s).camRot = s.camRot ∧
    (aimMouseDown s).saved = some (s.camPos, s.camRot) := by
  simp [aimMouseDown]

/-- Witness for C4 in the concrete aiming state. -/
theorem aim_down_in_aim_witness :
    aimStateA.isAiming = true ∧
    (aimMouseDown aimStateA).saved = some (aimStateA.camPos, aimStateA.camRot) :=
  ⟨rfl, (aim_down_in_aim aimStateA rfl).2.2.2⟩

/-- Claim C5 (confirmed): from every camera state, entering AIM and leaving it
again with no mouse movement in between restores the camera position and
rotation to their pre-aim values exactly, and clears the saved pose. -/
theorem aim_toggle_restores (s : CameraState) :
    (aimToggle s).camPos = s.camPos ∧ (aimToggle s).camRot = s.camRot ∧
    (aimToggle s).saved = none := by
  unfold aimToggle aimCameraEffect aimMouseDown aimMouseUp
  by_cases h : s.isCrouching ∧ s.originalCameraPositionY ≠ 0
  · simp [h]
  · simp [h]

/-- Helper for C6: a single input event keeps the pitch within
[-halfPi, halfPi]. -/
theorem applyMouseEvent_rotationX_mem {K : Type} [LinearOrderedField K]
    (halfPi : K) (hp : 0 ≤ halfPi) (s : MouseState K) (e : MouseEvent K)
    (h1 : -halfPi ≤ s.rotationX) (h2 : s.rotationX ≤ halfPi) :
    -halfPi ≤ (applyMouseEvent halfPi s e).rotationX ∧
      (applyMouseEvent halfPi s e).rotationX ≤ halfPi := by
  cases e with
  | down cx cy => exact ⟨h1, h2⟩
  | up => exact ⟨h1, h2⟩
  | move cx cy =>
    by_cases hd : s.isMouseDown = true
    · simp only [applyMouseEvent, handleMouseMove, hd, if_true]
      exact ⟨le_max_left _ _, max_le (neg_le_self hp) (min_le_left _ _)⟩
    · simp only [Bool.not_eq_true] at hd
      simp only [applyMouseEvent, handleMouseMove, hd, Bool.false_eq_true, if_false]
      exact ⟨h1, h2⟩

/-- Helper for C6: a whole event sequence keeps the pitch within
[-halfPi, halfPi]. -/
theorem runMouseEvents_rotationX_mem {K : Type} [LinearOrderedField K]
    (halfPi : K) (hp : 0 ≤ halfPi) (events : List (MouseEvent K)) :
    ∀ s : MouseState K, -halfPi ≤ s.rotationX → s.rotationX ≤ halfPi →
      -halfPi ≤ (runMouseEvents halfPi s events).rotationX ∧
        (runMouseEvents halfPi s events).rotationX ≤ halfPi := by
  induction events with
  | nil => intro s h1 h2; exact ⟨h1, h2⟩
  | cons e es ih =>
    intro s h1 h2
    have h := applyMouseEvent_rotationX_mem halfPi hp s e h1 h2
    simpa [runMouseEvents, List.foldl] using
      ih (applyMouseEvent halfPi s e) h.1 h.2

/-- Claim C6 (confirmed): for every sequence of mouse events from the initial
look state, the pitch rotationX stays within [-pi/2, pi/2]; the tick only
reads rotationX (player.tsx:434), so the invariant holds at every tick. -/
theorem pitch_within_bounds (events : List (MouseEvent ℝ)) :
    -(Real.pi / 2) ≤ (runMouseEvents (Real.pi / 2) (initialMouseState ℝ) events).rotationX ∧
      (runMouseEvents (Real.pi / 2) (initialMouseState ℝ) events).rotationX ≤ Real.pi / 2 := by
  have hp : (0 : ℝ) ≤ Real.pi / 2 := by positivity
  refine runMouseEvents_rotationX_mem (Real.pi / 2) hp events (initialMouseState ℝ) ?_ ?_
  · show -(Real.pi / 2) ≤ (0 : ℝ)
    linarith [Real.pi_pos]
  · show (0 : ℝ) ≤ Real.pi / 2
    exact hp

/-- Claim C7 counterexample: while aiming, the '-' key event still changes the
orbit distance: from 5 it moves to 5.5. -/
theorem aim_key_changes_distance_cex :
    applyDistEvent true 5 DistEvent.keyMinus = 11 / 2 ∧ ((11 / 2 : ℚ) ≠ 5) := by
  norm_num [applyDistEvent, maxCameraDistance]

/-- Claim C7 (amended): wheel events while aiming leave the orbit distance
unchanged, but the '+'/'-' key events adjust it in every camera mode; every
adjustment keeps a distance that starts within [min, max] within [min, max]. -/
theorem distance_clamped (aiming : Bool) (d : ℚ) (e : DistEvent)
    (hmin : minCameraDistance ≤ d) (hmax : d ≤ maxCameraDistance) :
    (∀ dir : Bool, applyDistEvent true d (DistEvent.wheel dir) = d) ∧
    minCameraDistance ≤ applyDistEvent aiming d e ∧
    applyDistEvent aiming d e ≤ maxCameraDistance := by
  have hmm : minCameraDistance ≤ maxCameraDistance := by
    norm_num [minCameraDistance, maxCameraDistance]
  refine ⟨fun dir => by simp [applyDistEvent], ?_, ?_⟩
  · cases e with
    | keyPlus => exact le_max_left _ _
    | keyMinus =>
      exact le_min hmm (by unfold minCameraDistance at hmin ⊢; linarith)
    | wheel dir =>
      by_cases ha : aiming = true
      · simp [applyDistEvent, ha]; exact hmin
      · simp only [Bool.not_eq_true] at ha
        simp only [applyDistEvent, ha, Bool.false_eq_true, if_false]
        exact le_max_left _ _
  · cases e with
    | keyPlus =>
      exact max_le hmm (by unfold maxCameraDistance at hmax ⊢; linarith)
    | keyMinus => exact min_le_left _ _
    | wheel dir =>
      by_cases ha : aiming = true
      · simp [applyDistEvent, ha]; exact hmax
      · simp only [Bool.not_eq_true] at ha
        simp only [applyDistEvent, ha, Bool.false_eq_true, if_false]
        exact max_le hmm (min_le_left _ _)

/-- Witness for C7: in aim mode with distance 5 the '-' key event keeps the
distance within [3, 8] (though it does change it). -/
theorem distance_clamped_witness :
    (minCameraDistance ≤ 5 ∧ (5 : ℚ) ≤ maxCameraDistance) ∧
    minCameraDistance ≤ applyDistEvent true 5 DistEvent.keyMinus ∧
    applyDistEvent true 5 DistEvent.keyMinus ≤ maxCameraDistance :=
  ⟨⟨by norm_num [minCameraDistance], by norm_num [maxCameraDistance]⟩,
    (distance_clamped true 5 DistEvent.keyMinus (by norm_num [minCameraDistance])
      (by norm_num [maxCameraDistance])).2⟩

/-- Claim C8 counterexample: with the left button down and the look state at
zero, a single mouse move of horizontal delta 10000 (far beyond any sanity
threshold) is applied in full: rotationY becomes -100 instead of being left
unchanged. -/
theorem huge_delta_applied_cex :
    (handleMouseMove (Real.pi / 2) (⟨true, 0, 0, 0, 0⟩ : MouseState ℝ) 10000 0).rotationY = -100 ∧
    ((-100 : ℝ) ≠ 0) := by
  constructor
  · simp [handleMouseMove]
    norm_num
  · norm_num

/-- Claim C8 (amended): the source applies mouse deltas with no sanity
threshold: for every bound M there is a single move event whose delta exceeds
M and which still changes the rotation state. -/
theorem no_delta_threshold (M : ℝ) :
    ∃ cx : ℝ, M < cx ∧
      (handleMouseMove (Real.pi / 2) (⟨true, 0, 0, 0, 0⟩ : MouseState ℝ) cx 0).rotationY ≠
        (⟨true, 0, 0, 0, 0⟩ : MouseState ℝ).rotationY := by
  refine ⟨max M 0 + 1, ?_, ?_⟩
  · have := le_max_left M 0
    linarith
  · have hpos : (0 : ℝ) < max M 0 + 1 := by
      have := le_max_right M 0
      linarith
    simp only [handleMouseMove, if_true]
    intro hc
    simp at hc
    linarith

/-- Claim C9 (confirmed): the tick's movement speed is baseSpeed times the
crouch multiplier when crouched and baseSpeed otherwise, and for every
positive base speed and every multiplier below 1 the crouched speed is
strictly smaller; with the source constants, 1/20 < 1/10. -/
theorem crouch_speed_strictly_slower (base mult : ℚ) (hb : 0 < base) (hm : mult < 1) :
    speedWith base mult true < speedWith base mult false ∧
    speedOf true = normalSpeed * crouchSpeedMultiplier ∧
    speedOf false = normalSpeed ∧
    speedOf true < speedOf false := by
  refine ⟨?_, by norm_num [speedOf, speedWith, normalSpeed, crouchSpeedMultiplier],
    by norm_num [speedOf, speedWith, normalSpeed, crouchSpeedMultiplier],
    by norm_num [speedOf, speedWith, normalSpeed, crouchSpeedMultiplier]⟩
  have h := mul_lt_mul_of_pos_left hm hb
  simpa [speedWith] using h

/-- Witness for C9 at the source constants base = 1/10, mult = 1/2. -/
theorem crouch_speed_strictly_slower_witness :
    (0 : ℚ) < 1 / 10 ∧ (1 / 2 : ℚ) < 1 ∧
    speedWith (1 / 10) (1 / 2) true < speedWith (1 / 10) (1 / 2) false :=
  ⟨by norm_num, by norm_num,
    (crouch_speed_strictly_slower (1 / 10) (1 / 2) (by norm_num) (by norm_num)).1⟩

/-- Claim C10 counterexample: with 'w' and 's' both held (so a directional key
is held), forward = (0,0,-1) and speed 1/10, the tick's displacement along the
forward axis is 0, not the current speed 1/10. -/
theorem walk_opposing_keys_cex :
    (moveStep ⟨true, false, true, false⟩ ⟨0, 0, -1⟩ (1 / 10) 1).dot ⟨0, 0, -1⟩ = 0 ∧
    ((0 : ℚ) ≠ 1 / 10) := by
  norm_num [moveStep, Vec3.dot, Vec3.add, Vec3.smul, Vec3.cross, upVec]

/-- Claim C10 (amended): horizontal walk displacement is per frame, identical
for every delta time; and on a tick in which a directional key is held and its
opposing key is not, the displacement component along the corresponding axis
is exactly the current speed (with the sign of the key). -/
theorem walk_per_frame (keys : Keys) (f : Vec3) (speed dt dt2 : ℚ)
    (hunit : f.dot f = 1) (hy : f.y = 0) :
    moveStep keys f speed dt = moveStep keys f speed dt2 ∧
    (keys.w = true → keys.s = false → (moveStep keys f speed dt).dot f = speed) ∧
    (keys.s = true → keys.w = false → (moveStep keys f speed dt).dot f = -speed) ∧
    (keys.d = true → keys.a = false →
      (moveStep keys f speed dt).dot (Vec3.cross upVec f) = speed) ∧
    (keys.a = true → keys.d = false →
      (moveStep keys f speed dt).dot (Vec3.cross upVec f) = -speed) := by
  obtain ⟨fx, fy, fz⟩ := f
  simp only [Vec3.y] at hy
  subst hy
  have hx : fx * fx + fz * fz = 1 := by
    simp [Vec3.dot] at hunit
    linarith
  obtain ⟨w, a, s, d⟩ := keys
  refine ⟨rfl, ?_, ?_, ?_, ?_⟩
  · intro h1 h2
    simp only at h1 h2
    subst h1; subst h2
    cases a <;> cases d <;>
      · simp [moveStep, Vec3.dot, Vec3.add, Vec3.smul, Vec3.cross, upVec]
        linear_combination speed * hx
  · intro h1 h2
    simp only at h1 h2
    subst h1; subst h2
    cases a <;> cases d <;>
      · simp [moveStep, Vec3.dot, Vec3.add, Vec3.smul, Vec3.cross, upVec]
        linear_combination (-speed) * hx
  · intro h1 h2
    simp only at h1 h2
    subst h1; subst h2
    cases w <;> cases s <;>
      · simp [moveStep, Vec3.dot, Vec3.add, Vec3.smul, Vec3.cross, upVec]
        linear_combination speed * hx
  · intro h1 h2
    simp only at h1 h2
    subst h1; subst h2
    cases w <;> cases s <;>
      · simp [moveStep, Vec3.dot, Vec3.add, Vec3.smul, Vec3.cross, upVec]
        linear_combination (-speed) * hx

/-- Witness for C10: holding only 'w' with forward (0,0,-1) and speed 1/10
moves exactly 1/10 along the forward axis, for delta times 1 and 2 alike. -/
theorem walk_per_frame_witness :
    ((⟨0, 0, -1⟩ : Vec3).dot ⟨0, 0, -1⟩ = 1) ∧ ((⟨0, 0, -1⟩ : Vec3).y = 0) ∧
    (moveStep ⟨true, false, false, false⟩ ⟨0, 0, -1⟩ (1 / 10) 1).dot ⟨0, 0, -1⟩ = 1 / 10 :=
  ⟨by norm_num [Vec3.dot], rfl,
    (walk_per_frame ⟨true, false, false, false⟩ ⟨0, 0, -1⟩ (1 / 10) 1 2
      (by norm_num [Vec3.dot]) rfl).2.1 rfl rfl⟩

end Player
